import Mathlib

/-!
Verification development for the Page_Node backend (document ingestion
pipeline, task registry, chunker, SM-2 spaced-repetition scheduler).

Shallow embedding conventions:
* Python strings are modelled as `List Char`; `str.strip()` strips the ASCII
  whitespace characters the PDF-derived text can contain.
* Python `float` arithmetic in the SM-2 scheduler is modelled exactly over
  `ℚ` (the decimal literals of the source are exact rationals here).
* `date.today()` is modelled as an explicit `today : ℤ` parameter (a day
  count); `today + timedelta(days=n)` becomes `today + n`.
* Database rows and the Kuzu graph are modelled as association lists.
* The asyncio pipeline's external effects (PDF extraction, ChromaDB, LLM
  calls) are modelled by an environment record describing their outcomes;
  the pipeline function returns the ordered trace of status writes.
-/

namespace PageNode

/-! ## Python-string helpers -/

/-- ASCII whitespace recognised by Python's `str.strip()` (the subset that can
occur in extracted PDF text). -/
def isPySpace (c : Char) : Bool :=
  c == ' ' || c == '\t' || c == '\n' || c == '\r' || c == '\x0b' || c == '\x0c'

/-- Python `text.strip()`: drop whitespace from both ends. -/
def pyStrip (l : List Char) : List Char :=
  ((l.dropWhile isPySpace).reverse.dropWhile isPySpace).reverse

/-! ## Chunker (`app/services/chunker.py`) -/

/-- `TARGET_CHARS = 2000` in `chunker.py`. -/
def TARGET_CHARS : ℕ := 2000

/-- `OVERLAP_CHARS = 200` in `chunker.py`. -/
def OVERLAP_CHARS : ℕ := 200

/-- A `(page_number, text)` pair as produced by the PDF extractor. -/
structure PageText where
  page_number : ℕ
  text : List Char
deriving Repr, DecidableEq

/-- `ChunkData` dataclass of `chunker.py`. -/
structure ChunkData where
  chunk_index : ℕ
  content : List Char
  page_number : Option ℕ
  char_start : ℕ
  char_end : ℕ
  token_count : ℕ
deriving Repr, DecidableEq

/-- The `full_text` / `page_offsets` accumulation loop at the top of
`chunk_pages`: concatenate `p.text + "\n"` for every page while recording
`(char_offset, page_number)` at which each page begins. -/
def buildFull (pages : List PageText) : List Char × List (ℕ × ℕ) :=
  pages.foldl
    (fun (st : List Char × List (ℕ × ℕ)) p =>
      (st.1 ++ p.text ++ ['\n'], st.2 ++ [(st.1.length, p.page_number)]))
    ([], [])

/-- The concatenated document text (`full_text`). -/
def fullTextOf (pages : List PageText) : List Char :=
  (buildFull pages).1

/-- The recorded `(char_offset, page_number)` map (`page_offsets`). -/
def pageOffsetsOf (pages : List PageText) : List (ℕ × ℕ) :=
  (buildFull pages).2

/-- Fuel-driven worker for `_split_paragraphs`: splits on runs of two or more
newlines, keeping each delimiter run attached to the text before it, exactly
as `re.split(r"(\n\n+)", text)` followed by the merge loop does.  The fuel is
only a structural-recursion device; `fuel ≥ cs.length` makes the base case
unreachable. -/
def scanParasF : ℕ → List Char → List Char → List (List Char)
  | 0, cs, curr => [curr.reverse ++ cs]
  | _ + 1, [], curr => [curr.reverse]
  | fuel + 1, c :: rest, curr =>
    if c = '\n' ∧ rest.head? = some '\n' then
      (curr.reverse ++ c :: rest.takeWhile (· == '\n'))
        :: scanParasF fuel (rest.dropWhile (· == '\n')) []
    else scanParasF fuel rest (c :: curr)

/-- `_split_paragraphs` of `chunker.py` (each returned piece's recorded length
is just its own length, so the `(text, length)` pairs collapse to the list of
pieces). -/
def _split_paragraphs (text : List Char) : List (List Char) :=
  scanParasF text.length text []

/-- `_lookup_page`: the page whose recorded start offset is the greatest one
`≤ char_offset` (the loop breaks at the first larger offset). -/
def lookupPageAux (char_offset : ℕ) : List (ℕ × ℕ) → Option ℕ → Option ℕ
  | [], result => result
  | (offset, page_num) :: rest, result =>
    if offset ≤ char_offset then lookupPageAux char_offset rest (some page_num)
    else result

/-- `_lookup_page(char_offset, page_offsets)`. -/
def _lookup_page (char_offset : ℕ) (page_offsets : List (ℕ × ℕ)) : Option ℕ :=
  lookupPageAux char_offset page_offsets none

/-- `_emit_chunk`: append a chunk built from the untrimmed buffer, unless the
buffer strips to empty.  `char_end` covers the *untrimmed* text. -/
def _emit_chunk (chunks : List ChunkData) (text : List Char) (char_start : ℕ)
    (page_offsets : List (ℕ × ℕ)) : List ChunkData :=
  let content := pyStrip text
  if content = [] then chunks
  else
    chunks ++ [{ chunk_index := chunks.length
               , content := content
               , page_number := _lookup_page char_start page_offsets
               , char_start := char_start
               , char_end := char_start + text.length
               , token_count := content.length / 4 }]

/-- The mutable loop state of `chunk_pages`. -/
structure ChunkState where
  chunks : List ChunkData
  buf : List Char
  buf_start : ℕ
  cursor : ℕ
deriving Repr, DecidableEq

/-- Python `buf[-overlap_chars:] if len(buf) > overlap_chars else buf`.
Note the Python corner case: `buf[-0:]` is the whole string, so when
`overlap_chars = 0` and the buffer is non-empty the "overlap" is the entire
buffer. -/
def overlapText (overlap_chars : ℕ) (buf : List Char) : List Char :=
  if buf.length > overlap_chars then
    if overlap_chars = 0 then buf else buf.drop (buf.length - overlap_chars)
  else buf

/-- One iteration of the `for para, para_len in paragraphs` loop of
`chunk_pages`. -/
def chunkStep (target_chars overlap_chars : ℕ) (page_offsets : List (ℕ × ℕ))
    (s : ChunkState) (para : List Char) : ChunkState :=
  let s := { s with cursor := s.cursor + para.length }
  if pyStrip para = [] then { s with buf := s.buf ++ para }
  else
    let s :=
      if s.buf ≠ [] ∧ s.buf.length + para.length > target_chars then
        let ot := overlapText overlap_chars s.buf
        { s with
          chunks := _emit_chunk s.chunks s.buf s.buf_start page_offsets
          , buf_start := s.buf_start + s.buf.length - ot.length
          , buf := ot }
      else s
    { s with buf := s.buf ++ para }

/-- `chunk_pages(pages, target_chars, overlap_chars)` of `chunker.py`. -/
def chunk_pages (pages : List PageText)
    (target_chars : ℕ := TARGET_CHARS) (overlap_chars : ℕ := OVERLAP_CHARS) :
    List ChunkData :=
  if pages.isEmpty then []
  else
    let full_text := fullTextOf pages
    let page_offsets := pageOffsetsOf pages
    if pyStrip full_text = [] then []
    else
      let paragraphs := _split_paragraphs full_text
      let s := paragraphs.foldl (chunkStep target_chars overlap_chars page_offsets)
        { chunks := [], buf := [], buf_start := 0, cursor := 0 }
      if pyStrip s.buf = [] then s.chunks
      else _emit_chunk s.chunks s.buf s.buf_start page_offsets

/-- Offset `i` lies in some produced chunk's covered range
`[char_start, char_end)`. -/
def coversOffset (chunks : List ChunkData) (i : ℕ) : Bool :=
  chunks.any fun c => decide (c.char_start ≤ i) && decide (i < c.char_end)

/-- The `chunk_index` column of a chunk list is contiguous from 0. -/
def IdxInv (cs : List ChunkData) : Prop :=
  cs.map ChunkData.chunk_index = List.range cs.length

/-- Every chunk's covered range ends within the first `n` characters. -/
def EndBound (cs : List ChunkData) (n : ℕ) : Prop :=
  ∀ c ∈ cs, c.char_end ≤ n

/-- The structural loop invariant of `chunk_pages`: the pending buffer covers
exactly the text between `buf_start` and the cursor, emitted chunk indices
are contiguous, and every emitted chunk ends at or before the cursor. -/
def BasicInv (s : ChunkState) : Prop :=
  s.buf_start + s.buf.length = s.cursor ∧ IdxInv s.chunks ∧
    EndBound s.chunks s.cursor

/-- The coverage invariant of `chunk_pages`, valid once the buffer has seen a
non-whitespace paragraph: the buffer still strips non-empty, and every offset
before the cursor is either covered by an emitted chunk or still inside the
pending buffer's range. -/
def CovInv (s : ChunkState) : Prop :=
  pyStrip s.buf ≠ [] ∧
    ∀ i, i < s.cursor → coversOffset s.chunks i = true ∨ s.buf_start ≤ i

/-! ## SM-2 scheduler (`app/routers/quiz.py`) -/

/-- `_GRADE_QUALITY = [0, 2, 4, 5]` indexed by the (validated) grade. -/
def _GRADE_QUALITY : Fin 4 → ℕ
  | ⟨0, _⟩ => 0
  | ⟨1, _⟩ => 2
  | ⟨2, _⟩ => 4
  | ⟨_ + 3, _⟩ => 5

/-- `_MASTERY_DELTA = {0: -0.05, 1: 0.0, 2: 0.05, 3: 0.10}`. -/
def _MASTERY_DELTA : Fin 4 → ℚ
  | ⟨0, _⟩ => -0.05
  | ⟨1, _⟩ => 0.0
  | ⟨2, _⟩ => 0.05
  | ⟨_ + 3, _⟩ => 0.10

/-- Python's built-in `max` on two rationals (kernel-computable; equal to
`max` by `pyMax_eq_max` below). -/
def pyMax (a b : ℚ) : ℚ := if a ≤ b then b else a

/-- Python's built-in `min` on two rationals (kernel-computable; equal to
`min` by `pyMin_eq_min` below). -/
def pyMin (a b : ℚ) : ℚ := if b ≤ a then b else a

/-- Python's built-in `max` on two integers (kernel-computable; equal to
`max` by `pyMaxI_eq_max` below). -/
def pyMaxI (a b : ℤ) : ℤ := if a ≤ b then b else a

/-- Python's built-in `round` (round half to even) on an exact rational. -/
def pyRound (x : ℚ) : ℤ :=
  let n := x.floor
  let frac := x - (n : ℚ)
  if frac < 1 / 2 then n
  else if 1 / 2 < frac then n + 1
  else if n % 2 = 0 then n else n + 1

/-- Result record of `_compute_sm2` (the `next_review` ISO date is modelled
as the day count `today + new_interval`). -/
structure SM2Out where
  repetitions : ℕ
  interval : ℤ
  difficulty : ℚ
  next_review : ℤ
deriving Repr, DecidableEq

/-- `_compute_sm2(grade, repetitions, interval, difficulty)`; `today` stands
for `date.today()`. -/
def _compute_sm2 (today : ℤ) (grade : Fin 4) (repetitions : ℕ) (interval : ℤ)
    (difficulty : ℚ) : SM2Out :=
  let q := _GRADE_QUALITY grade
  let rn : ℕ × ℤ :=
    if q < 3 then (0, 1)
    else
      let new_interval : ℤ :=
        if repetitions = 0 then 1
        else if repetitions = 1 then 6
        else pyMaxI 1 (pyRound ((interval : ℚ) * (2.5 - difficulty * 1.2)))
      (repetitions + 1, new_interval)
  let ef_delta : ℚ := 0.1 - ((5 : ℚ) - (q : ℚ)) * (0.08 + ((5 : ℚ) - (q : ℚ)) * 0.02)
  let new_difficulty : ℚ := pyMax 0.1 (pyMin 0.9 (difficulty - ef_delta * 0.2))
  { repetitions := rn.1
  , interval := rn.2
  , difficulty := new_difficulty
  , next_review := today + rn.2 }

/-! ## Concept mastery (`app/db/kuzu_.py`, `update_concept_mastery_from_chunk`) -/

/-- A `Concept` node of the Kuzu graph. -/
structure ConceptNode where
  id : String
  mastery : ℚ
  review_count : ℕ
deriving Repr, DecidableEq

/-- The per-concept update performed by `update_concept_mastery_from_chunk`
on every concept that has an `EXTRACTED_FROM` edge carrying the chunk id:
`new_mastery = max(0.0, min(1.0, mastery + delta))`, `review_count + 1`.
`edges` lists the `(concept_id, chunk_id)` payloads of the
`EXTRACTED_FROM` edges. -/
def _mastery_step (chunk_id : String) (delta : ℚ)
    (edges : List (String × String)) (c : ConceptNode) : ConceptNode :=
  if edges.any (fun e => decide (e.1 = c.id) && decide (e.2 = chunk_id)) then
    { c with mastery := pyMax 0 (pyMin 1 (c.mastery + delta))
           , review_count := c.review_count + 1 }
  else c

/-- `update_concept_mastery_from_chunk(chunk_id, delta)` applied to the whole
concept table. -/
def update_concept_mastery_from_chunk (chunk_id : String) (delta : ℚ)
    (concepts : List ConceptNode) (edges : List (String × String)) :
    List ConceptNode :=
  concepts.map (_mastery_step chunk_id delta edges)

/-! ## The `/quiz/{card_id}/review` endpoint (`review_card` in `quiz.py`) -/

/-- The stored spaced-repetition state of a flashcard row. -/
structure StoredCard where
  repetitions : ℕ
  interval : ℤ
  difficulty : ℚ
  next_review : Option ℤ
  chunk_id : Option String
deriving Repr, DecidableEq

/-- The state `review_card` reads and writes: the flashcard table and the
Kuzu concept graph. -/
structure QuizStore where
  cards : List (String × StoredCard)
  concepts : List ConceptNode
  edges : List (String × String)
deriving Repr, DecidableEq

/-- The `HTTPException`s `review_card` can raise. -/
inductive ReviewError
  | badGrade422
  | notFound404
deriving Repr, DecidableEq

/-- The `ReviewResult` response model. -/
structure ReviewResultM where
  interval : ℤ
  next_review : ℤ
  repetitions : ℕ
  difficulty : ℚ
deriving Repr, DecidableEq

/-- The `if body.grade not in (0, 1, 2, 3)` guard: a pydantic-validated
integer grade is accepted only when it is one of the four ordinals. -/
def gradeToFin (grade : ℤ) : Option (Fin 4) :=
  if grade = 0 then some 0
  else if grade = 1 then some 1
  else if grade = 2 then some 2
  else if grade = 3 then some 3
  else none

/-- Look a flashcard up by id (`get_flashcard`). -/
def lookupCard (card_id : String) (cards : List (String × StoredCard)) :
    Option StoredCard :=
  (cards.find? fun p => decide (p.1 = card_id)).map (·.2)

/-- `review_card(card_id, body, db)`: validate the grade (422 before any
read or write), look the card up (404), run `_compute_sm2`, persist the new
SM-2 state, then best-effort update concept mastery for the card's source
chunk.  Returns the store after the call together with the HTTP outcome; on
an error outcome the store is returned unchanged, matching the exception
being raised before any write. -/
def review_card (today : ℤ) (card_id : String) (grade : ℤ) (st : QuizStore) :
    QuizStore × Except ReviewError ReviewResultM :=
  match gradeToFin grade with
  | none => (st, .error .badGrade422)
  | some g =>
    match lookupCard card_id st.cards with
    | none => (st, .error .notFound404)
    | some card =>
      let r := _compute_sm2 today g card.repetitions card.interval card.difficulty
      let cards' := st.cards.map fun p =>
        if p.1 = card_id then
          (p.1, { p.2 with repetitions := r.repetitions
                         , interval := r.interval
                         , difficulty := r.difficulty
                         , next_review := some r.next_review })
        else p
      let concepts' :=
        match card.chunk_id with
        | some cid => update_concept_mastery_from_chunk cid (_MASTERY_DELTA g) st.concepts st.edges
        | none => st.concepts
      ({ st with cards := cards', concepts := concepts' },
       .ok { interval := r.interval
           , next_review := r.next_review
           , repetitions := r.repetitions
           , difficulty := r.difficulty })

/-! ## Document status and the ingestion pipeline (`app/services/ingestion.py`) -/

/-- The persisted `documents.status` values. -/
inductive DocStatus
  | pending
  | extracting
  | chunking
  | embedding
  | extracting_concepts
  | concepts_ready
  | ready
  | needs_ocr
  | error
deriving Repr, DecidableEq

/-- Outcome of one best-effort LLM sub-stage call (`extract_concepts_for_document`
or `generate_flashcards_for_document`): it returns a count or raises. -/
inductive SubOutcome
  | ok (n : ℕ)
  | raises
deriving Repr, DecidableEq

/-- Environment describing the behaviour of the pipeline's external
collaborators for one run: whether the document row exists, what the PDF
extractor returns (or whether it raises), whether the chunk insert or the
ChromaDB embedding write raises, whether an LLM backend is configured, and
how each LLM sub-stage behaves. -/
structure PipelineEnv where
  doc_exists : Bool
  extract_raises : Bool
  pages : List PageText
  needs_ocr : Bool
  insert_raises : Bool
  embed_raises : Bool
  llm_configured : Bool
  concept_outcome : SubOutcome
  flashcard_outcome : SubOutcome
deriving Repr, DecidableEq

/-- What one pipeline (or LLM-stage) run does: the ordered trace of status
writes, the chunk rows inserted, and the counts the two LLM sub-stages
reported (`none` when the sub-stage raised and was swallowed). -/
structure PipeResult where
  statuses : List DocStatus
  chunks_inserted : List ChunkData
  n_concepts : Option ℕ
  n_cards : Option ℕ
deriving Repr, DecidableEq

/-- `_run_llm_stage`: sets `extracting_concepts`, runs concept extraction in
a `try/except` that only logs, runs flashcard generation in a `try/except`
that only logs, then sets `concepts_ready` unconditionally.  Neither
sub-stage outcome influences the status writes. -/
def _run_llm_stage (concept_outcome flashcard_outcome : SubOutcome) : PipeResult :=
  let n_concepts := match concept_outcome with
    | .ok n => some n
    | .raises => none
  let n_cards := match flashcard_outcome with
    | .ok n => some n
    | .raises => none
  { statuses := [.extracting_concepts, .concepts_ready]
  , chunks_inserted := []
  , n_concepts := n_concepts
  , n_cards := n_cards }

/-- `process_document(doc_id)`: the full pipeline.  Status `extracting` is
written first; a missing document row aborts; an extractor exception is
caught at the pipeline boundary and becomes status `error`; `needs_ocr`
stops the pipeline; `chunking` is written before `chunk_pages` runs and an
empty chunk list short-circuits to `ready`; `embedding` is written before
the ChromaDB batches; with no LLM backend configured the document goes
straight to `ready`, otherwise `_run_llm_stage` runs.  (The best-effort
ChromaDB purge before re-embedding has no observable effect in this model.) -/
def process_document (env : PipelineEnv) : PipeResult :=
  if ¬ env.doc_exists then
    { statuses := [.extracting], chunks_inserted := [], n_concepts := none, n_cards := none }
  else if env.extract_raises then
    { statuses := [.extracting, .error], chunks_inserted := [], n_concepts := none, n_cards := none }
  else if env.needs_ocr then
    { statuses := [.extracting, .needs_ocr], chunks_inserted := [], n_concepts := none, n_cards := none }
  else
    let chunks := chunk_pages env.pages TARGET_CHARS OVERLAP_CHARS
    if chunks = [] then
      { statuses := [.extracting, .chunking, .ready], chunks_inserted := [], n_concepts := none, n_cards := none }
    else if env.insert_raises then
      { statuses := [.extracting, .chunking, .error], chunks_inserted := [], n_concepts := none, n_cards := none }
    else if env.embed_raises then
      { statuses := [.extracting, .chunking, .embedding, .error], chunks_inserted := chunks, n_concepts := none, n_cards := none }
    else if env.llm_configured then
      let llm := _run_llm_stage env.concept_outcome env.flashcard_outcome
      { statuses := [.extracting, .chunking, .embedding] ++ llm.statuses
      , chunks_inserted := chunks
      , n_concepts := llm.n_concepts
      , n_cards := llm.n_cards }
    else
      { statuses := [.extracting, .chunking, .embedding, .ready], chunks_inserted := chunks, n_concepts := none, n_cards := none }

/-- `run_llm_stage_for_doc(doc_id)`: the standalone LLM stage used by crash
recovery.  It fetches the document (aborting silently when missing) and runs
only `_run_llm_stage`; it never extracts, chunks or embeds and inserts no
chunk rows. -/
def run_llm_stage_for_doc (env : PipelineEnv) : PipeResult :=
  if ¬ env.doc_exists then
    { statuses := [], chunks_inserted := [], n_concepts := none, n_cards := none }
  else _run_llm_stage env.concept_outcome env.flashcard_outcome

/-- Position of each status in the pipeline order
`pending → extracting → chunking → embedding → extracting_concepts →
concepts_ready → ready`.  The two terminal classifications `ready` and
`needs_ocr` share the final rank; `error` is past everything. -/
def statusRank : DocStatus → ℕ
  | .pending => 0
  | .extracting => 1
  | .chunking => 2
  | .embedding => 3
  | .extracting_concepts => 4
  | .concepts_ready => 5
  | .ready => 6
  | .needs_ocr => 6
  | .error => 7

/-- A single status transition is forward in the pipeline order, or goes to
`error`. -/
def ForwardOk (a b : DocStatus) : Prop :=
  statusRank a ≤ statusRank b ∨ b = .error

instance : DecidableRel ForwardOk := fun a b =>
  inferInstanceAs (Decidable (statusRank a ≤ statusRank b ∨ b = .error))

/-- Boolean check that every adjacent pair of a status-write trace is a
forward-or-error transition. -/
def traceOk : List DocStatus → Bool
  | a :: b :: rest => decide (ForwardOk a b) && traceOk (b :: rest)
  | _ => true

/-- Every adjacent pair of a status-write trace is a forward-or-error
transition. -/
def TraceOk (trace : List DocStatus) : Prop :=
  traceOk trace = true

instance (trace : List DocStatus) : Decidable (TraceOk trace) :=
  inferInstanceAs (Decidable (traceOk trace = true))

/-! ## Task registry (`app/services/task_registry.py`) -/

/-- Model of the registry module state plus the asyncio loop's live tasks:
`running` is the `_running_tasks` dict (doc id → task token), `active`
records every created-and-unfinished task as `(doc_id, token)`, and
`next_token` is a fresh-token counter standing for task object identity. -/
structure Registry where
  running : List (String × ℕ)
  active : List (String × ℕ)
  next_token : ℕ
deriving Repr, DecidableEq

/-- The registry at process start. -/
def emptyRegistry : Registry := { running := [], active := [], next_token := 0 }

/-- `start_task(doc_id, coro)`: `asyncio.create_task` schedules the coroutine
unconditionally (the new task becomes active), and the dict entry for the id
is then overwritten.  There is no check for an already-running task. -/
def start_task (doc_id : String) (r : Registry) : Registry :=
  { running := (r.running.filter fun p => ! decide (p.1 = doc_id)) ++ [(doc_id, r.next_token)]
  , active := r.active ++ [(doc_id, r.next_token)]
  , next_token := r.next_token + 1 }

/-- The done callback `_running_tasks.pop(doc_id, None)` together with the
task leaving the event loop. -/
def finish_task (doc_id : String) (token : ℕ) (r : Registry) : Registry :=
  { r with running := r.running.filter fun p => ! decide (p.1 = doc_id)
         , active := r.active.filter fun p => ! decide (p = (doc_id, token)) }

/-- `get_task(doc_id)`. -/
def get_task (doc_id : String) (r : Registry) : Option ℕ :=
  (r.running.find? fun p => decide (p.1 = doc_id)).map (·.2)

/-- `is_processing(doc_id)`: registered and not done. -/
def is_processing (doc_id : String) (r : Registry) : Bool :=
  match get_task doc_id r with
  | some t => decide ((doc_id, t) ∈ r.active)
  | none => false

/-- Number of live pipeline executions for a document id. -/
def countActive (doc_id : String) (r : Registry) : ℕ :=
  (r.active.filter fun p => decide (p.1 = doc_id)).length

/-- The recovery sweep's two classes of restart. -/
inductive RecoveryAction
  | fullPipeline
  | llmOnly
deriving Repr, DecidableEq

/-- `recover_stuck_documents()`: reads only the persisted statuses.  Documents
in `extracting`, `chunking` or `embedding` get a full `process_document`
restart; documents in `extracting_concepts` get `run_llm_stage_for_doc`
only. -/
def recover_stuck_documents (docs : List (String × DocStatus)) :
    List (String × RecoveryAction) :=
  ((docs.filter fun d =>
      decide (d.2 = .extracting) || decide (d.2 = .chunking) || decide (d.2 = .embedding)).map
    fun d => (d.1, RecoveryAction.fullPipeline))
  ++ ((docs.filter fun d => decide (d.2 = .extracting_concepts)).map
    fun d => (d.1, RecoveryAction.llmOnly))

/-! ## LLM sub-stage chunk selection
(`concept_extractor.py` and `flashcard_generator.py`) -/

/-- A row of the SQLite `chunks` table. -/
structure DBChunk where
  id : String
  document_id : String
  chunk_index : ℕ
  content : List Char
  has_embedding : Bool
deriving Repr, DecidableEq

/-- Insert a chunk row into a list sorted by ascending `chunk_index`. -/
def orderedInsertByIdx (c : DBChunk) : List DBChunk → List DBChunk
  | [] => [c]
  | d :: ds =>
    if c.chunk_index ≤ d.chunk_index then c :: d :: ds
    else d :: orderedInsertByIdx c ds

/-- Sort chunk rows by ascending `chunk_index` (the `ORDER BY chunk_index`
of the selection query). -/
def sortByChunkIdx : List DBChunk → List DBChunk
  | [] => []
  | c :: cs => orderedInsertByIdx c (sortByChunkIdx cs)

/-- `SELECT id, content FROM chunks WHERE document_id = ? AND
has_embedding = 1 ORDER BY chunk_index LIMIT ?`: the limit applies after the
ordering and counts rows before any minimum-length skip. -/
def selectEmbeddedChunks (chunks : List DBChunk) (doc_id : String) (limit : ℕ) :
    List DBChunk :=
  (sortByChunkIdx (chunks.filter fun c =>
    decide (c.document_id = doc_id) && c.has_embedding)).take limit

namespace ConceptExtractor

/-- `MAX_CHUNKS = 20` in `concept_extractor.py`. -/
def MAX_CHUNKS : ℕ := 20

/-- `MIN_CHUNK_CHARS = 100` in `concept_extractor.py`. -/
def MIN_CHUNK_CHARS : ℕ := 100

/-- The chunks the concept-extraction loop actually sends to the LLM when the
backend stays available: the selected rows in selection order, skipping any
whose content is below `MIN_CHUNK_CHARS` (`if len(content) < MIN_CHUNK_CHARS:
continue`). -/
def processedChunks (chunks : List DBChunk) (doc_id : String) : List DBChunk :=
  (selectEmbeddedChunks chunks doc_id MAX_CHUNKS).filter
    fun c => ! decide (c.content.length < MIN_CHUNK_CHARS)

end ConceptExtractor

namespace FlashcardGenerator

/-- `MAX_CHUNKS = 10` in `flashcard_generator.py`. -/
def MAX_CHUNKS : ℕ := 10

/-- `MIN_CHUNK_CHARS = 100` in `flashcard_generator.py`. -/
def MIN_CHUNK_CHARS : ℕ := 100

/-- The chunks the flashcard-generation loop actually sends to the LLM when
the backend stays available. -/
def processedChunks (chunks : List DBChunk) (doc_id : String) : List DBChunk :=
  (selectEmbeddedChunks chunks doc_id MAX_CHUNKS).filter
    fun c => ! decide (c.content.length < MIN_CHUNK_CHARS)

end FlashcardGenerator

/-- Ascending-`chunk_index` ordering between chunk rows. -/
def IdxLE (a b : DBChunk) : Prop :=
  a.chunk_index ≤ b.chunk_index

instance : DecidableRel IdxLE := fun a b =>
  inferInstanceAs (Decidable (a.chunk_index ≤ b.chunk_index))

/-! ## Concrete instances used by witnesses and counterexamples -/

/-- The spec's chunker scenario page: `[("p1", "A.\n\nB.")]` with page number 1. -/
def scenarioPages : List PageText := [⟨1, ['A', '.', '\n', '\n', 'B', '.']⟩]

/-- A document whose leading whitespace run (six newlines) exceeds both a
small target size and the overlap, followed by the two characters `ab`. -/
def gapPages : List PageText := [⟨1, List.replicate 6 '\n' ++ ['a', 'b']⟩]

/-- A fully healthy pipeline environment in which both LLM sub-stages raise. -/
def llmFailEnv : PipelineEnv :=
  { doc_exists := true
  , extract_raises := false
  , pages := scenarioPages
  , needs_ocr := false
  , insert_raises := false
  , embed_raises := false
  , llm_configured := true
  , concept_outcome := .raises
  , flashcard_outcome := .raises }

/-- A fully healthy pipeline environment with both LLM sub-stages succeeding. -/
def healthyEnv : PipelineEnv :=
  { doc_exists := true
  , extract_raises := false
  , pages := scenarioPages
  , needs_ocr := false
  , insert_raises := false
  , embed_raises := false
  , llm_configured := true
  , concept_outcome := .ok 2
  , flashcard_outcome := .ok 3 }

/-- Two persisted documents: one stuck in `embedding`, one in
`extracting_concepts`. -/
def recoveryDocs : List (String × DocStatus) :=
  [("a", DocStatus.embedding), ("b", DocStatus.extracting_concepts)]

/-- An embedded chunk row of document `d` with index 0 and a 120-character
content. -/
def chunkRow0 : DBChunk := ⟨"c0", "d", 0, List.replicate 120 'x', true⟩

/-- An embedded chunk row of document `d` with index 1 and a 120-character
content. -/
def chunkRow1 : DBChunk := ⟨"c1", "d", 1, List.replicate 120 'y', true⟩

/-- The chunk table holding the two rows of document `d`. -/
def chunkTable : List DBChunk := [chunkRow0, chunkRow1]

/-! # Helper lemmas -/

theorem pyMax_eq_max (a b : ℚ) : pyMax a b = max a b := by
  rw [pyMax, max_def]

theorem pyMin_eq_min (a b : ℚ) : pyMin a b = min a b := by
  rw [pyMin, min_def]
  by_cases hba : b ≤ a
  · rw [if_pos hba]
    by_cases hab : a ≤ b
    · rw [if_pos hab]
      exact le_antisymm hba hab
    · rw [if_neg hab]
  · rw [if_neg hba, if_pos (le_of_not_le hba)]

theorem pyMaxI_eq_max (a b : ℤ) : pyMaxI a b = max a b := by
  rw [pyMaxI, max_def]

theorem le_pyMax_left (a b : ℚ) : a ≤ pyMax a b := by
  rw [pyMax]
  split
  · assumption
  · exact le_refl a

theorem pyMax_le {a b c : ℚ} (h1 : a ≤ c) (h2 : b ≤ c) : pyMax a b ≤ c := by
  rw [pyMax]
  split <;> assumption

theorem pyMin_le_left (a b : ℚ) : pyMin a b ≤ a := by
  rw [pyMin]
  split
  · assumption
  · exact le_refl a

theorem le_pyMaxI_left (a b : ℤ) : a ≤ pyMaxI a b := by
  rw [pyMaxI]
  split
  · assumption
  · exact le_refl a

/-- `_mastery_step` never changes a concept's id. -/
theorem _mastery_step_id (chunk_id : String) (delta : ℚ)
    (edges : List (String × String)) (c : ConceptNode) :
    (_mastery_step chunk_id delta edges c).id = c.id := by
  rw [_mastery_step]
  split <;> rfl

theorem pyStrip_eq_nil_iff (l : List Char) :
    pyStrip l = [] ↔ ∀ c ∈ l, isPySpace c = true := by
  rw [pyStrip, List.reverse_eq_nil_iff, List.dropWhile_eq_nil_iff]
  constructor
  · intro h c hc
    by_cases htake : c ∈ l.takeWhile isPySpace
    · exact List.mem_takeWhile_imp htake
    · have hc2 : c ∈ l.takeWhile isPySpace ++ l.dropWhile isPySpace := by
        rw [List.takeWhile_append_dropWhile]
        exact hc
      rcases List.mem_append.1 hc2 with h1 | h1
      · exact absurd h1 htake
      · exact h c (List.mem_reverse.2 h1)
  · intro h c hc
    exact h c ((List.dropWhile_sublist _).subset (List.mem_reverse.1 hc))

theorem pyStrip_append_left_ne {a : List Char} (b : List Char)
    (h : pyStrip a ≠ []) : pyStrip (a ++ b) ≠ [] := by
  intro hab
  apply h
  rw [pyStrip_eq_nil_iff] at hab ⊢
  intro c hc
  exact hab c (List.mem_append_left b hc)

theorem pyStrip_append_right_ne (a : List Char) {b : List Char}
    (h : pyStrip b ≠ []) : pyStrip (a ++ b) ≠ [] := by
  intro hab
  apply h
  rw [pyStrip_eq_nil_iff] at hab ⊢
  intro c hc
  exact hab c (List.mem_append_right a hc)

theorem overlapText_length_le (o : ℕ) (b : List Char) :
    (overlapText o b).length ≤ b.length := by
  rw [overlapText]
  split
  · split
    · exact le_refl _
    · rw [List.length_drop]
      omega
  · exact le_refl _

theorem coversOffset_append (cs ds : List ChunkData) (i : ℕ) :
    coversOffset (cs ++ ds) i = (coversOffset cs i || coversOffset ds i) := by
  simp [coversOffset, List.any_append]

theorem coversOffset_emit_mono {cs : List ChunkData} {i : ℕ}
    (t : List Char) (st : ℕ) (pos : List (ℕ × ℕ))
    (h : coversOffset cs i = true) :
    coversOffset (_emit_chunk cs t st pos) i = true := by
  rw [_emit_chunk]
  split
  · exact h
  · rw [coversOffset_append, h, Bool.true_or]

theorem coversOffset_emit_covers {cs : List ChunkData} {t : List Char}
    {st i : ℕ} (pos : List (ℕ × ℕ)) (hne : pyStrip t ≠ [])
    (h1 : st ≤ i) (h2 : i < st + t.length) :
    coversOffset (_emit_chunk cs t st pos) i = true := by
  rw [_emit_chunk]
  rw [if_neg hne, coversOffset_append]
  have hsingle : coversOffset
      [⟨cs.length, pyStrip t, _lookup_page st pos, st, st + t.length,
        (pyStrip t).length / 4⟩] i = true := by
    simp [coversOffset, h1, h2]
  rw [hsingle, Bool.or_true]

theorem IdxInv_emit (t : List Char) (st : ℕ) (pos : List (ℕ × ℕ))
    {cs : List ChunkData} (h : IdxInv cs) :
    IdxInv (_emit_chunk cs t st pos) := by
  rw [_emit_chunk]
  split
  · exact h
  · rw [IdxInv] at h ⊢
    simp only [List.map_append, List.length_append, List.map_cons, List.map_nil,
      List.length_cons, List.length_nil, Nat.add_zero]
    rw [List.range_succ, h]

theorem EndBound_mono {cs : List ChunkData} {n m : ℕ} (h : EndBound cs n)
    (hnm : n ≤ m) : EndBound cs m :=
  fun c hc => le_trans (h c hc) hnm

theorem EndBound_emit {cs : List ChunkData} {n : ℕ} {t : List Char} {st : ℕ}
    (pos : List (ℕ × ℕ)) (h : EndBound cs n) (hle : st + t.length ≤ n) :
    EndBound (_emit_chunk cs t st pos) n := by
  rw [_emit_chunk]
  split
  · exact h
  · intro c hc
    rcases List.mem_append.1 hc with h1 | h1
    · exact h c h1
    · rw [List.mem_singleton] at h1
      subst h1
      exact hle

theorem chunkStep_eq (t o : ℕ) (pos : List (ℕ × ℕ)) (s : ChunkState)
    (para : List Char) :
    chunkStep t o pos s para =
      if pyStrip para = [] then
        ⟨s.chunks, s.buf ++ para, s.buf_start, s.cursor + para.length⟩
      else if s.buf ≠ [] ∧ s.buf.length + para.length > t then
        ⟨_emit_chunk s.chunks s.buf s.buf_start pos,
         overlapText o s.buf ++ para,
         s.buf_start + s.buf.length - (overlapText o s.buf).length,
         s.cursor + para.length⟩
      else ⟨s.chunks, s.buf ++ para, s.buf_start, s.cursor + para.length⟩ := by
  unfold chunkStep
  dsimp only
  split_ifs <;> rfl

theorem chunkStep_cursor (t o : ℕ) (pos : List (ℕ × ℕ)) (s : ChunkState)
    (para : List Char) :
    (chunkStep t o pos s para).cursor = s.cursor + para.length := by
  rw [chunkStep_eq]
  split_ifs <;> rfl

theorem chunkStep_nil_buf (t o : ℕ) (pos : List (ℕ × ℕ)) (cs : List ChunkData)
    (bs cur : ℕ) (para : List Char) :
    chunkStep t o pos ⟨cs, [], bs, cur⟩ para = ⟨cs, para, bs, cur + para.length⟩ := by
  rw [chunkStep_eq]
  split_ifs with h1 h2
  · rfl
  · exact absurd rfl h2.1
  · rfl

theorem BasicInv_chunkStep {t o : ℕ} {pos : List (ℕ × ℕ)} {s : ChunkState}
    (para : List Char) (h : BasicInv s) :
    BasicInv (chunkStep t o pos s para) := by
  obtain ⟨hlen, hidx, hend⟩ := h
  rw [chunkStep_eq]
  split_ifs with h1 h2
  · refine ⟨?_, hidx, ?_⟩
    · show s.buf_start + (s.buf ++ para).length = s.cursor + para.length
      rw [List.length_append]
      omega
    · show EndBound s.chunks (s.cursor + para.length)
      exact EndBound_mono hend (Nat.le_add_right _ _)
  · have hot := overlapText_length_le o s.buf
    refine ⟨?_, IdxInv_emit _ _ _ hidx, ?_⟩
    · show s.buf_start + s.buf.length - (overlapText o s.buf).length +
        (overlapText o s.buf ++ para).length = s.cursor + para.length
      rw [List.length_append]
      omega
    · show EndBound (_emit_chunk s.chunks s.buf s.buf_start pos)
        (s.cursor + para.length)
      exact EndBound_emit _ (EndBound_mono hend (Nat.le_add_right _ _)) (by omega)
  · refine ⟨?_, hidx, ?_⟩
    · show s.buf_start + (s.buf ++ para).length = s.cursor + para.length
      rw [List.length_append]
      omega
    · show EndBound s.chunks (s.cursor + para.length)
      exact EndBound_mono hend (Nat.le_add_right _ _)

theorem CovInv_chunkStep {t o : ℕ} {pos : List (ℕ × ℕ)} {s : ChunkState}
    (para : List Char) (hb : BasicInv s) (hc : CovInv s) :
    CovInv (chunkStep t o pos s para) := by
  obtain ⟨hlen, hidx, hend⟩ := hb
  obtain ⟨hbuf, hcov⟩ := hc
  rw [chunkStep_eq]
  split_ifs with h1 h2
  · refine ⟨pyStrip_append_left_ne para hbuf, ?_⟩
    intro i hi
    dsimp only at hi ⊢
    by_cases hcur : i < s.cursor
    · exact hcov i hcur
    · exact Or.inr (by omega)
  · have hot := overlapText_length_le o s.buf
    refine ⟨pyStrip_append_right_ne _ h1, ?_⟩
    intro i hi
    dsimp only at hi ⊢
    by_cases hcur : i < s.cursor
    · rcases hcov i hcur with hcase | hcase
      · exact Or.inl (coversOffset_emit_mono _ _ _ hcase)
      · by_cases hin : i < s.buf_start + s.buf.length
        · exact Or.inl (coversOffset_emit_covers _ hbuf hcase hin)
        · exact Or.inr (by omega)
    · exact Or.inr (by omega)
  · refine ⟨pyStrip_append_right_ne _ h1, ?_⟩
    intro i hi
    dsimp only at hi ⊢
    by_cases hcur : i < s.cursor
    · exact hcov i hcur
    · exact Or.inr (by omega)

theorem BasicInv_foldl (t o : ℕ) (pos : List (ℕ × ℕ)) :
    ∀ (ps : List (List Char)) (s : ChunkState), BasicInv s →
      BasicInv (ps.foldl (chunkStep t o pos) s) := by
  intro ps
  induction ps with
  | nil => intro s h; exact h
  | cons p ps ih =>
    intro s h
    rw [List.foldl_cons]
    exact ih _ (BasicInv_chunkStep p h)

theorem CovInv_foldl (t o : ℕ) (pos : List (ℕ × ℕ)) :
    ∀ (ps : List (List Char)) (s : ChunkState), BasicInv s → CovInv s →
      CovInv (ps.foldl (chunkStep t o pos) s) := by
  intro ps
  induction ps with
  | nil => intro s _ h; exact h
  | cons p ps ih =>
    intro s hb hc
    rw [List.foldl_cons]
    exact ih _ (BasicInv_chunkStep p hb) (CovInv_chunkStep p hb hc)

theorem cursor_foldl (t o : ℕ) (pos : List (ℕ × ℕ)) :
    ∀ (ps : List (List Char)) (s : ChunkState),
      (ps.foldl (chunkStep t o pos) s).cursor =
        s.cursor + (ps.map List.length).sum := by
  intro ps
  induction ps with
  | nil => intro s; simp
  | cons p ps ih =>
    intro s
    rw [List.foldl_cons, ih, chunkStep_cursor]
    simp only [List.map_cons, List.sum_cons]
    omega

theorem scanParasF_join : ∀ (fuel : ℕ) (cs curr : List Char),
    (scanParasF fuel cs curr).flatten = curr.reverse ++ cs := by
  intro fuel
  induction fuel with
  | zero =>
    intro cs curr
    simp [scanParasF]
  | succ fuel ih =>
    intro cs curr
    cases cs with
    | nil => simp [scanParasF]
    | cons c rest =>
      rw [scanParasF]
      split_ifs with h
      · rw [List.flatten_cons, ih]
        simp only [List.reverse_nil, List.nil_append, List.append_assoc,
          List.cons_append]
        rw [List.takeWhile_append_dropWhile]
      · rw [ih]
        simp

theorem scanParasF_ne_nil : ∀ (fuel : ℕ) (cs curr : List Char),
    scanParasF fuel cs curr ≠ [] := by
  intro fuel
  induction fuel with
  | zero =>
    intro cs curr
    simp [scanParasF]
  | succ fuel ih =>
    intro cs curr
    cases cs with
    | nil => simp [scanParasF]
    | cons c rest =>
      rw [scanParasF]
      split_ifs with h
      · exact List.cons_ne_nil _ _
      · exact ih _ _

theorem chunk_pages_empty_pages (pages : List PageText) (t o : ℕ)
    (h : pages.isEmpty = true) : chunk_pages pages t o = [] := by
  unfold chunk_pages
  rw [h]
  rfl

theorem chunk_pages_ws_text (pages : List PageText) (t o : ℕ)
    (h : pyStrip (fullTextOf pages) = []) : chunk_pages pages t o = [] := by
  unfold chunk_pages
  cases hemp : pages.isEmpty
  · dsimp only
    rw [if_pos h]
    rfl
  · rfl

theorem chunk_pages_core (pages : List PageText) (t o : ℕ)
    (h : pages.isEmpty = false) (h2 : ¬ pyStrip (fullTextOf pages) = []) :
    chunk_pages pages t o =
      if pyStrip ((_split_paragraphs (fullTextOf pages)).foldl
            (chunkStep t o (pageOffsetsOf pages)) ⟨[], [], 0, 0⟩).buf = [] then
        ((_split_paragraphs (fullTextOf pages)).foldl
            (chunkStep t o (pageOffsetsOf pages)) ⟨[], [], 0, 0⟩).chunks
      else
        _emit_chunk
          ((_split_paragraphs (fullTextOf pages)).foldl
              (chunkStep t o (pageOffsetsOf pages)) ⟨[], [], 0, 0⟩).chunks
          ((_split_paragraphs (fullTextOf pages)).foldl
              (chunkStep t o (pageOffsetsOf pages)) ⟨[], [], 0, 0⟩).buf
          ((_split_paragraphs (fullTextOf pages)).foldl
              (chunkStep t o (pageOffsetsOf pages)) ⟨[], [], 0, 0⟩).buf_start
          (pageOffsetsOf pages) := by
  unfold chunk_pages
  rw [h]
  dsimp only
  rw [if_neg h2]
  rfl

/-- The LLM stage writes `extracting_concepts` then `concepts_ready`, no
matter how the two sub-stages behave. -/
theorem _run_llm_stage_statuses (a b : SubOutcome) :
    (_run_llm_stage a b).statuses =
      [DocStatus.extracting_concepts, DocStatus.concepts_ready] := rfl

/-- The LLM stage inserts no chunk rows. -/
theorem _run_llm_stage_chunks (a b : SubOutcome) :
    (_run_llm_stage a b).chunks_inserted = [] := rfl

/-- In a table whose key column is duplicate-free, a key determines its row. -/
theorem key_determines_value {α β : Type} [DecidableEq α] :
    ∀ (l : List (α × β)) (a : α) (b c : β),
      (l.map Prod.fst).Nodup → (a, b) ∈ l → (a, c) ∈ l → b = c := by
  intro l
  induction l with
  | nil => intro a b c _ hb; cases hb
  | cons hd tl ih =>
    intro a b c hnd hb hc
    rw [List.map_cons, List.nodup_cons] at hnd
    rw [List.mem_cons] at hb hc
    rcases hb with hb | hb <;> rcases hc with hc | hc
    · rw [← hb] at hc
      injection hc with h1 h2
      exact h2.symm
    · subst hb
      exact absurd (List.mem_map_of_mem Prod.fst hc) hnd.1
    · subst hc
      exact absurd (List.mem_map_of_mem Prod.fst hb) hnd.1
    · exact ih a b c hnd.2 hb hc

/-! # Claim theorems -/

/-- C3: the spec requires at most one active pipeline execution per document
id, with a second start request rejected or ignored.  The code's `start_task`
unconditionally schedules a new asyncio task and overwrites the registry
entry, so a second start while the first task is still live yields two
concurrently active executions for the same id. -/
theorem C3_duplicate_start_two_active :
    is_processing "doc" (start_task "doc" emptyRegistry) = true ∧
    countActive "doc" (start_task "doc" (start_task "doc" emptyRegistry)) = 2 := by
  decide

/-- C5: for every prior card state, a grade whose mapped quality is below the
pass threshold 3 (grades 0 = fail and 1 = hard are exactly those) resets
`repetitions` to 0 and `interval` to 1. -/
theorem C5_below_pass_threshold_resets (today : ℤ) (grade : Fin 4)
    (repetitions : ℕ) (interval : ℤ) (difficulty : ℚ)
    (h : _GRADE_QUALITY grade < 3) :
    (_compute_sm2 today grade repetitions interval difficulty).repetitions = 0 ∧
    (_compute_sm2 today grade repetitions interval difficulty).interval = 1 := by
  rw [_compute_sm2]
  constructor <;> simp only [if_pos h]

theorem C5_below_pass_threshold_resets_witness :
    (_compute_sm2 0 1 5 100 (1/2)).repetitions = 0 ∧
    (_compute_sm2 0 1 5 100 (1/2)).interval = 1 :=
  C5_below_pass_threshold_resets 0 1 5 100 (1/2) (by decide)

/-- C6: the claimed scenario result is wrong on the code.  Submitting grade
"easy" (3) on a card with `repetitions = 1, interval = 6, difficulty = 0.3`
hits the `repetitions == 1` branch of `_compute_sm2`, which returns interval
6, not `round(6 * (2.5 - 0.36)) = 13`; `next_review` is `today + 6`, not
`today + 13`. -/
theorem C6_scenario_counterexample :
    (_compute_sm2 0 3 1 6 0.3).repetitions = 2 ∧
    (_compute_sm2 0 3 1 6 0.3).interval = 6 ∧
    (_compute_sm2 0 3 1 6 0.3).interval ≠ 13 ∧
    (_compute_sm2 0 3 1 6 0.3).next_review ≠ 0 + 13 :=
  ⟨by decide, by decide, by decide, by decide⟩

/-- C6 (amended): submitting grade "easy" (3) on a card with
`repetitions = 1, interval = 6, difficulty = 0.3` yields `repetitions = 2`,
`interval = 6` (the fixed second-repetition interval), difficulty `0.28`, and
`next_review = today + 6`. -/
theorem C6_scenario_amended (today : ℤ) :
    (_compute_sm2 today 3 1 6 0.3).repetitions = 2 ∧
    (_compute_sm2 today 3 1 6 0.3).interval = 6 ∧
    (_compute_sm2 today 3 1 6 0.3).difficulty = 0.28 ∧
    (_compute_sm2 today 3 1 6 0.3).next_review = today + 6 := by
  refine ⟨rfl, rfl, ?_, rfl⟩
  norm_num [_compute_sm2, _GRADE_QUALITY, pyMax, pyMin]

/-- C10: a review whose integer grade is outside `{0, 1, 2, 3}` fails with
HTTP 422 before the card is even read: the store is returned unchanged (no
SM-2 write, no concept-mastery update) and the outcome is the 422 error. -/
theorem C10_invalid_grade_rejected_before_write (today : ℤ) (card_id : String)
    (grade : ℤ) (st : QuizStore)
    (h : ¬ (grade = 0 ∨ grade = 1 ∨ grade = 2 ∨ grade = 3)) :
    review_card today card_id grade st = (st, .error .badGrade422) := by
  push_neg at h
  rw [review_card, gradeToFin, if_neg h.1, if_neg h.2.1, if_neg h.2.2.1,
    if_neg h.2.2.2]

theorem C10_invalid_grade_rejected_before_write_witness :
    review_card 0 "card" 5 { cards := [], concepts := [], edges := [] } =
      ({ cards := [], concepts := [], edges := [] }, .error .badGrade422) :=
  C10_invalid_grade_rejected_before_write 0 "card" 5
    { cards := [], concepts := [], edges := [] } (by decide)

/-- C1: whenever a document reaches the LLM stage (healthy extraction,
chunking and embedding, and an LLM backend configured), the run ends with
status `concepts_ready` and never writes `error` — for every combination of
sub-stage outcomes, including both sub-stages raising. -/
theorem C1_llm_stage_failures_absorbed (env : PipelineEnv)
    (hdoc : env.doc_exists = true) (hex : env.extract_raises = false)
    (hocr : env.needs_ocr = false)
    (hch : chunk_pages env.pages TARGET_CHARS OVERLAP_CHARS ≠ [])
    (hins : env.insert_raises = false) (hemb : env.embed_raises = false)
    (hllm : env.llm_configured = true) :
    (process_document env).statuses.getLast? = some DocStatus.concepts_ready ∧
    DocStatus.error ∉ (process_document env).statuses := by
  simp [process_document, hdoc, hex, hocr, hins, hemb, hllm, hch, _run_llm_stage]

theorem C1_llm_stage_failures_absorbed_witness :
    (process_document llmFailEnv).statuses.getLast? = some DocStatus.concepts_ready ∧
    DocStatus.error ∉ (process_document llmFailEnv).statuses :=
  C1_llm_stage_failures_absorbed llmFailEnv rfl rfl rfl (by decide) rfl rfl rfl

/-- C4: the claim that persisted status never moves backwards (except to
`error`) across every pipeline and recovery operation is false: the startup
sweep classifies a document stuck in `embedding` for a full restart, and the
restarted `process_document` writes `extracting` first, a backward move that
is not `error`. -/
theorem C4_recovery_regression_counterexample :
    recover_stuck_documents [("a", DocStatus.embedding)] =
      [("a", RecoveryAction.fullPipeline)] ∧
    (process_document healthyEnv).statuses.head? = some DocStatus.extracting ∧
    ¬ TraceOk (DocStatus.embedding :: (process_document healthyEnv).statuses) := by
  decide

/-- C4 (amended): within a single pipeline run launched from `pending`, and
within a single LLM-stage rerun launched from `extracting_concepts`, the
status only moves forward in the pipeline order (with the terminal
classifications `ready` and `needs_ocr` ranked last) or to `error`; only the
startup recovery sweep's full restart of a document stuck in
`{extracting, chunking, embedding}` moves status backward, to `extracting`. -/
theorem C4_monotone_within_single_run (env env2 : PipelineEnv) :
    TraceOk (DocStatus.pending :: (process_document env).statuses) ∧
    TraceOk (DocStatus.extracting_concepts :: (run_llm_stage_for_doc env2).statuses) := by
  constructor
  · simp only [process_document]
    split_ifs <;> simp only [_run_llm_stage] <;> decide
  · simp only [run_llm_stage_for_doc]
    split_ifs
    · rw [_run_llm_stage_statuses]
      decide
    · decide

/-- C2: the startup sweep, reading only persisted status, schedules a full
pipeline restart for exactly the documents in `{extracting, chunking,
embedding}` and an LLM-stage-only rerun for exactly those in
`extracting_concepts`; a full restart begins by writing `extracting`
(restart from extraction), while the LLM rerun inserts no chunk rows and
never writes the `extracting`, `chunking` or `embedding` statuses. -/
theorem C2_recovery_classification (docs : List (String × DocStatus))
    (id : String) (st : DocStatus)
    (hnd : (docs.map Prod.fst).Nodup) (hmem : (id, st) ∈ docs) :
    ((st = .extracting ∨ st = .chunking ∨ st = .embedding) →
       (id, RecoveryAction.fullPipeline) ∈ recover_stuck_documents docs ∧
       (id, RecoveryAction.llmOnly) ∉ recover_stuck_documents docs) ∧
    (st = .extracting_concepts →
       (id, RecoveryAction.llmOnly) ∈ recover_stuck_documents docs ∧
       (id, RecoveryAction.fullPipeline) ∉ recover_stuck_documents docs) ∧
    (∀ env : PipelineEnv,
       (process_document env).statuses.head? = some DocStatus.extracting) ∧
    (∀ env : PipelineEnv,
       (run_llm_stage_for_doc env).chunks_inserted = [] ∧
       DocStatus.extracting ∉ (run_llm_stage_for_doc env).statuses ∧
       DocStatus.chunking ∉ (run_llm_stage_for_doc env).statuses ∧
       DocStatus.embedding ∉ (run_llm_stage_for_doc env).statuses) := by
  refine ⟨?_, ?_, ?_, ?_⟩
  · intro hst
    constructor
    · apply List.mem_append_left
      have hf : (id, st) ∈ docs.filter (fun d =>
          decide (d.2 = .extracting) || decide (d.2 = .chunking) ||
            decide (d.2 = .embedding)) := by
        rw [List.mem_filter]
        refine ⟨hmem, ?_⟩
        rcases hst with h | h | h <;> simp [h]
      simpa using List.mem_map_of_mem (fun d => (d.1, RecoveryAction.fullPipeline)) hf
    · intro hbad
      rcases List.mem_append.1 hbad with hl | hr
      · rcases List.mem_map.1 hl with ⟨d, _, heq⟩
        simp at heq
      · rcases List.mem_map.1 hr with ⟨d, hd, heq⟩
        rw [List.mem_filter] at hd
        have hd2 : d.2 = .extracting_concepts := by simpa using hd.2
        have hid : d.1 = id := by
          injection heq with h1 h2
        have hmem2 : (id, d.2) ∈ docs := by
          rw [← hid]
          exact hd.1
        have := key_determines_value docs id st d.2 hnd hmem hmem2
        rcases hst with h | h | h <;> simp_all
  · intro hst
    constructor
    · apply List.mem_append_right
      have hf : (id, st) ∈ docs.filter (fun d => decide (d.2 = .extracting_concepts)) := by
        rw [List.mem_filter]
        exact ⟨hmem, by simp [hst]⟩
      simpa using List.mem_map_of_mem (fun d => (d.1, RecoveryAction.llmOnly)) hf
    · intro hbad
      rcases List.mem_append.1 hbad with hl | hr
      · rcases List.mem_map.1 hl with ⟨d, hd, heq⟩
        rw [List.mem_filter] at hd
        have hd2 : d.2 = .extracting ∨ d.2 = .chunking ∨ d.2 = .embedding := by
          have := hd.2
          simp only [Bool.or_eq_true, decide_eq_true_eq] at this
          tauto
        have hid : d.1 = id := by
          injection heq with h1 h2
        have hmem2 : (id, d.2) ∈ docs := by
          rw [← hid]
          exact hd.1
        have := key_determines_value docs id st d.2 hnd hmem hmem2
        rcases hd2 with h | h | h <;> simp_all
      · rcases List.mem_map.1 hr with ⟨d, _, heq⟩
        simp at heq
  · intro env
    simp only [process_document]
    split_ifs <;> rfl
  · intro env
    simp only [run_llm_stage_for_doc]
    split_ifs
    · refine ⟨_run_llm_stage_chunks _ _, ?_, ?_, ?_⟩ <;>
        rw [_run_llm_stage_statuses] <;> decide
    · exact ⟨rfl, by decide, by decide, by decide⟩

theorem C2_recovery_classification_witness :
    ("a", RecoveryAction.fullPipeline) ∈ recover_stuck_documents recoveryDocs ∧
    ("a", RecoveryAction.llmOnly) ∉ recover_stuck_documents recoveryDocs ∧
    ("b", RecoveryAction.llmOnly) ∈ recover_stuck_documents recoveryDocs ∧
    ("b", RecoveryAction.fullPipeline) ∉ recover_stuck_documents recoveryDocs :=
  ⟨((C2_recovery_classification recoveryDocs "a" .embedding (by decide) (by decide)).1
      (by decide)).1,
   ((C2_recovery_classification recoveryDocs "a" .embedding (by decide) (by decide)).1
      (by decide)).2,
   ((C2_recovery_classification recoveryDocs "b" .extracting_concepts (by decide)
      (by decide)).2.1 (by decide)).1,
   ((C2_recovery_classification recoveryDocs "b" .extracting_concepts (by decide)
      (by decide)).2.1 (by decide)).2⟩

/-- C7: for every card state and grade the review computation returns an
interval of at least 1 and a difficulty clamped into [0.1, 0.9]; and every
concept-mastery update applied by `update_concept_mastery_from_chunk` to a
concept linked to the reviewed chunk leaves that concept's mastery within
[0.0, 1.0]. -/
theorem C7_bounds_invariants :
    (∀ (today : ℤ) (grade : Fin 4) (repetitions : ℕ) (interval : ℤ)
        (difficulty : ℚ),
        1 ≤ (_compute_sm2 today grade repetitions interval difficulty).interval ∧
        (0.1 : ℚ) ≤ (_compute_sm2 today grade repetitions interval difficulty).difficulty ∧
        (_compute_sm2 today grade repetitions interval difficulty).difficulty ≤ 0.9) ∧
    (∀ (chunk_id : String) (delta : ℚ) (concepts : List ConceptNode)
        (edges : List (String × String)) (c : ConceptNode),
        c ∈ update_concept_mastery_from_chunk chunk_id delta concepts edges →
        edges.any (fun e => decide (e.1 = c.id) && decide (e.2 = chunk_id)) = true →
        0 ≤ c.mastery ∧ c.mastery ≤ 1) := by
  constructor
  · intro today grade reps interval difficulty
    refine ⟨?_, ?_, ?_⟩
    · simp only [_compute_sm2]
      split
      · norm_num
      · split
        · norm_num
        · split
          · norm_num
          · exact le_pyMaxI_left 1 _
    · simp only [_compute_sm2]
      exact le_pyMax_left _ _
    · simp only [_compute_sm2]
      exact pyMax_le (by norm_num) (pyMin_le_left _ _)
  · intro chunk_id delta concepts edges c hc hany
    rw [update_concept_mastery_from_chunk] at hc
    rcases List.mem_map.1 hc with ⟨c0, hc0, rfl⟩
    rw [_mastery_step_id] at hany
    rw [_mastery_step, if_pos hany]
    exact ⟨le_pyMax_left 0 _, pyMax_le (by norm_num) (pyMin_le_left _ _)⟩

theorem mem_orderedInsertByIdx {c x : DBChunk} :
    ∀ {l : List DBChunk}, x ∈ orderedInsertByIdx c l ↔ x = c ∨ x ∈ l := by
  intro l
  induction l with
  | nil => simp [orderedInsertByIdx]
  | cons d ds ih =>
    rw [orderedInsertByIdx]
    split
    · simp [List.mem_cons]
    · rw [List.mem_cons, ih, List.mem_cons]
      tauto

theorem pairwise_orderedInsertByIdx {c : DBChunk} :
    ∀ {l : List DBChunk}, List.Pairwise IdxLE l →
      List.Pairwise IdxLE (orderedInsertByIdx c l) := by
  intro l
  induction l with
  | nil =>
    intro _
    simp [orderedInsertByIdx]
  | cons d ds ih =>
    intro h
    rw [List.pairwise_cons] at h
    rw [orderedInsertByIdx]
    split
    · rename_i hle
      rw [List.pairwise_cons]
      refine ⟨?_, ?_⟩
      · intro x hx
        rw [List.mem_cons] at hx
        rcases hx with rfl | hx
        · exact hle
        · exact Nat.le_trans hle (h.1 x hx)
      · rw [List.pairwise_cons]
        exact h
    · rename_i hgt
      rw [List.pairwise_cons]
      refine ⟨?_, ih h.2⟩
      intro x hx
      rw [mem_orderedInsertByIdx] at hx
      rcases hx with rfl | hx
      · show d.chunk_index ≤ x.chunk_index
        omega
      · exact h.1 x hx

theorem pairwise_sortByChunkIdx :
    ∀ l : List DBChunk, List.Pairwise IdxLE (sortByChunkIdx l) := by
  intro l
  induction l with
  | nil => simp [sortByChunkIdx]
  | cons c cs ih => exact pairwise_orderedInsertByIdx ih

theorem mem_sortByChunkIdx {x : DBChunk} :
    ∀ {l : List DBChunk}, x ∈ sortByChunkIdx l ↔ x ∈ l := by
  intro l
  induction l with
  | nil => simp [sortByChunkIdx]
  | cons c cs ih =>
    rw [sortByChunkIdx, mem_orderedInsertByIdx, ih, List.mem_cons]

/-- What the chunk-selection plus minimum-length skip of either LLM sub-stage
guarantees: at most `limit` rows, ascending `chunk_index`, and every
processed chunk is an embedded chunk of the document with content at least
`minc` characters long. -/
theorem select_filter_spec (chunks : List DBChunk) (doc_id : String)
    (limit minc : ℕ) :
    ((selectEmbeddedChunks chunks doc_id limit).filter
        (fun c => ! decide (c.content.length < minc))).length ≤ limit ∧
    List.Pairwise IdxLE ((selectEmbeddedChunks chunks doc_id limit).filter
        (fun c => ! decide (c.content.length < minc))) ∧
    ∀ c ∈ (selectEmbeddedChunks chunks doc_id limit).filter
        (fun c => ! decide (c.content.length < minc)),
      c.document_id = doc_id ∧ c.has_embedding = true ∧
        minc ≤ c.content.length := by
  refine ⟨?_, ?_, ?_⟩
  · calc ((selectEmbeddedChunks chunks doc_id limit).filter
        (fun c => ! decide (c.content.length < minc))).length
        ≤ (selectEmbeddedChunks chunks doc_id limit).length :=
          List.length_filter_le _ _
      _ ≤ limit := by
          rw [selectEmbeddedChunks, List.length_take]
          exact min_le_left _ _
  · exact (pairwise_sortByChunkIdx _).sublist
      ((List.filter_sublist _).trans (List.take_sublist _ _))
  · intro c hc
    rw [List.mem_filter] at hc
    have hlen : minc ≤ c.content.length := by
      have := hc.2
      simp only [Bool.not_eq_true', decide_eq_false_iff_not, not_lt] at this
      exact this
    have hsel : c ∈ selectEmbeddedChunks chunks doc_id limit := hc.1
    rw [selectEmbeddedChunks] at hsel
    have hsort := (List.take_sublist _ _).subset hsel
    rw [mem_sortByChunkIdx, List.mem_filter] at hsort
    have hcond := hsort.2
    simp only [Bool.and_eq_true, decide_eq_true_eq] at hcond
    exact ⟨hcond.1, hcond.2, hlen⟩

set_option maxRecDepth 10000 in
/-- C9: the claim's "most-recent-chunk-order" (descending index) is wrong on
the code: both sub-stages select `ORDER BY chunk_index` ascending, so the
chunk with index 0 is processed before the chunk with index 1; the
most-recent (highest-index) chunk comes last, and the processed sequence is
not descending. -/
theorem C9_order_counterexample :
    (ConceptExtractor.processedChunks chunkTable "d").map DBChunk.chunk_index = [0, 1] ∧
    (FlashcardGenerator.processedChunks chunkTable "d").map DBChunk.chunk_index = [0, 1] ∧
    ¬ List.Pairwise (fun a b : DBChunk => b.chunk_index ≤ a.chunk_index)
        (ConceptExtractor.processedChunks chunkTable "d") := by
  decide

/-- C9 (amended): both sub-stages process at most their fixed cap of the
document's embedded chunks in ascending `chunk_index` order (oldest first),
skipping every chunk whose content is below the minimum character length:
every processed chunk belongs to the document, is embedded, and has content
of at least the minimum length. -/
theorem C9_ascending_cap_skip (chunks : List DBChunk) (doc_id : String) :
    (ConceptExtractor.processedChunks chunks doc_id).length ≤
      ConceptExtractor.MAX_CHUNKS ∧
    (FlashcardGenerator.processedChunks chunks doc_id).length ≤
      FlashcardGenerator.MAX_CHUNKS ∧
    List.Pairwise IdxLE (ConceptExtractor.processedChunks chunks doc_id) ∧
    List.Pairwise IdxLE (FlashcardGenerator.processedChunks chunks doc_id) ∧
    (∀ c ∈ ConceptExtractor.processedChunks chunks doc_id,
      c.document_id = doc_id ∧ c.has_embedding = true ∧
        ConceptExtractor.MIN_CHUNK_CHARS ≤ c.content.length) ∧
    (∀ c ∈ FlashcardGenerator.processedChunks chunks doc_id,
      c.document_id = doc_id ∧ c.has_embedding = true ∧
        FlashcardGenerator.MIN_CHUNK_CHARS ≤ c.content.length) := by
  obtain ⟨hl1, hp1, hm1⟩ := select_filter_spec chunks doc_id
    ConceptExtractor.MAX_CHUNKS ConceptExtractor.MIN_CHUNK_CHARS
  obtain ⟨hl2, hp2, hm2⟩ := select_filter_spec chunks doc_id
    FlashcardGenerator.MAX_CHUNKS FlashcardGenerator.MIN_CHUNK_CHARS
  exact ⟨hl1, hl2, hp1, hp2, hm1, hm2⟩

set_option maxRecDepth 10000 in
theorem C9_ascending_cap_skip_witness :
    chunkRow0.document_id = "d" ∧ chunkRow0.has_embedding = true ∧
    ConceptExtractor.MIN_CHUNK_CHARS ≤ chunkRow0.content.length :=
  (C9_ascending_cap_skip chunkTable "d").2.2.2.2.1 chunkRow0 (by decide)

/-- C8: the claim that the chunks' covered offset ranges always reconstruct
the full concatenated text is false: when the text's leading whitespace run
alone exceeds the target size, the first buffer strips to empty and is
dropped without emitting a chunk, leaving its offsets uncovered.  With
`gapPages` (six newlines then `ab`), target 5 and overlap 1, the single
produced chunk covers `[5, 9)` and offset 0 of the 9-character text is
covered by no chunk. -/
theorem C8_gap_counterexample :
    chunk_pages gapPages 5 1 ≠ [] ∧
    0 < (fullTextOf gapPages).length ∧
    coversOffset (chunk_pages gapPages 5 1) 0 = false := by
  decide

/-- C8 (amended): for every input page list and tunables the produced
`chunk_index` sequence is contiguous from 0 and every covered range ends
within the concatenated text; and provided the text's first paragraph piece
(the text up to the first blank-line separator) does not strip to
whitespace-only, the chunks' covered offset ranges `[char_start, char_end)`
together cover every offset of the concatenated document text. -/
theorem C8_offset_ranges_cover (pages : List PageText) (t o : ℕ) :
    IdxInv (chunk_pages pages t o) ∧
    EndBound (chunk_pages pages t o) (fullTextOf pages).length ∧
    (pyStrip ((_split_paragraphs (fullTextOf pages)).headD []) ≠ [] →
      ∀ i, i < (fullTextOf pages).length →
        coversOffset (chunk_pages pages t o) i = true) := by
  by_cases hp : pages.isEmpty = true
  · rw [chunk_pages_empty_pages pages t o hp]
    have hpn : pages = [] := List.isEmpty_iff.1 hp
    refine ⟨rfl, fun c hc => absurd hc (List.not_mem_nil c), ?_⟩
    intro _ i hi
    rw [hpn] at hi
    simp [fullTextOf, buildFull] at hi
  · rw [Bool.not_eq_true] at hp
    by_cases hs : pyStrip (fullTextOf pages) = []
    · rw [chunk_pages_ws_text pages t o hs]
      refine ⟨rfl, fun c hc => absurd hc (List.not_mem_nil c), ?_⟩
      intro hH2 i hi
      exfalso
      obtain ⟨p₁, rest, hcons⟩ :=
        List.exists_cons_of_ne_nil
          (scanParasF_ne_nil (fullTextOf pages).length (fullTextOf pages) [])
      have hps : _split_paragraphs (fullTextOf pages) = p₁ :: rest := hcons
      have hflat : (_split_paragraphs (fullTextOf pages)).flatten =
          fullTextOf pages := by
        rw [_split_paragraphs, scanParasF_join]
        simp
      apply hH2
      rw [hps]
      rw [pyStrip_eq_nil_iff]
      intro c hc
      rw [pyStrip_eq_nil_iff] at hs
      apply hs
      rw [← hflat, hps, List.flatten_cons]
      exact List.mem_append_left _ (by simpa using hc)
    · rw [chunk_pages_core pages t o hp hs]
      obtain ⟨p₁, rest, hcons⟩ :=
        List.exists_cons_of_ne_nil
          (scanParasF_ne_nil (fullTextOf pages).length (fullTextOf pages) [])
      have hps : _split_paragraphs (fullTextOf pages) = p₁ :: rest := hcons
      have hflat : (_split_paragraphs (fullTextOf pages)).flatten =
          fullTextOf pages := by
        rw [_split_paragraphs, scanParasF_join]
        simp
      set sfin := (_split_paragraphs (fullTextOf pages)).foldl
        (chunkStep t o (pageOffsetsOf pages)) (⟨[], [], 0, 0⟩ : ChunkState)
        with hsfin
      have hbasic : BasicInv sfin := by
        rw [hsfin]
        exact BasicInv_foldl t o _ _ _
          ⟨rfl, rfl, fun c hc => absurd hc (List.not_mem_nil c)⟩
      have hcursor : sfin.cursor = (fullTextOf pages).length := by
        rw [hsfin, cursor_foldl]
        show 0 + ((_split_paragraphs (fullTextOf pages)).map List.length).sum =
          (fullTextOf pages).length
        rw [Nat.zero_add, ← List.length_flatten, hflat]
      refine ⟨?_, ?_, ?_⟩
      · split_ifs with hemit
        · exact hbasic.2.1
        · exact IdxInv_emit _ _ _ hbasic.2.1
      · split_ifs with hemit
        · exact hcursor ▸ hbasic.2.2
        · refine EndBound_emit _ (hcursor ▸ hbasic.2.2) ?_
          have h1 := hbasic.1
          omega
      · intro hH2 i hi
        have hp₁ : pyStrip p₁ ≠ [] := by
          rw [hps] at hH2
          simpa using hH2
        have hbasic₁ : BasicInv (⟨[], p₁, 0, p₁.length⟩ : ChunkState) :=
          ⟨by simp, rfl, fun c hc => absurd hc (List.not_mem_nil c)⟩
        have hcov₁ : CovInv (⟨[], p₁, 0, p₁.length⟩ : ChunkState) :=
          ⟨hp₁, fun j _ => Or.inr (Nat.zero_le j)⟩
        have hsfin2 : sfin = rest.foldl (chunkStep t o (pageOffsetsOf pages))
            ⟨[], p₁, 0, p₁.length⟩ := by
          rw [hsfin, hps, List.foldl_cons, chunkStep_nil_buf, Nat.zero_add]
        have hcovfin : CovInv sfin := by
          rw [hsfin2]
          exact CovInv_foldl t o _ rest _ hbasic₁ hcov₁
        split_ifs with hemit
        · exact absurd hemit hcovfin.1
        · rcases hcovfin.2 i (by rw [hcursor]; exact hi) with hcase | hcase
          · exact coversOffset_emit_mono _ _ _ hcase
          · refine coversOffset_emit_covers _ hcovfin.1 hcase ?_
            have h1 := hbasic.1
            omega

theorem C8_offset_ranges_cover_witness :
    pyStrip ((_split_paragraphs (fullTextOf scenarioPages)).headD []) ≠ [] ∧
    coversOffset (chunk_pages scenarioPages 100 10) 3 = true :=
  ⟨by decide,
   (C8_offset_ranges_cover scenarioPages 100 10).2.2 (by decide) 3 (by decide)⟩

theorem C7_bounds_invariants_witness :
    (1 ≤ (_compute_sm2 0 0 3 7 (1/2)).interval ∧
      (0.1 : ℚ) ≤ (_compute_sm2 0 0 3 7 (1/2)).difficulty ∧
      (_compute_sm2 0 0 3 7 (1/2)).difficulty ≤ 0.9) ∧
    (0 ≤ (_mastery_step "k" (1/2) [("x", "k")] ⟨"x", 9/10, 0⟩).mastery ∧
      (_mastery_step "k" (1/2) [("x", "k")] ⟨"x", 9/10, 0⟩).mastery ≤ 1) :=
  ⟨C7_bounds_invariants.1 0 0 3 7 (1/2),
   C7_bounds_invariants.2 "k" (1/2) [⟨"x", 9/10, 0⟩] [("x", "k")]
     (_mastery_step "k" (1/2) [("x", "k")] ⟨"x", 9/10, 0⟩)
     (by simp [update_concept_mastery_from_chunk]) (by decide)⟩

end PageNode
